import Mathlib

/-!
Shallow embedding of the geospatial feature-processing pipeline of the
Miami-Dade climate-resilience dashboard (src/src/App.jsx), together with
theorems settling the frozen claims about it.

JavaScript numbers are modelled as exact rationals (ℚ) for the parsing and
statistics code, and as real numbers (ℝ) for the geometric code that uses
transcendental functions (exp, atan).  Float rounding and overflow to
Infinity are not modelled.  JavaScript `undefined` is modelled as `none` of
an `Option`, and JavaScript `null` as an explicit `JValue.null`.
-/

namespace Climate

/-- Model of a JavaScript scalar value as it occurs in GeoJSON property
bags: null, boolean, (finite) number, or string. -/
inductive JValue
  | null
  | bool (b : Bool)
  | num (q : ℚ)
  | str (s : String)
deriving DecidableEq

/-- JavaScript truthiness of a scalar: null, false, 0 and "" are falsy.
(NaN is not representable in the rational model.) -/
def jsTruthy : JValue → Bool
  | .null => false
  | .bool b => b
  | .num q => decide (q ≠ 0)
  | .str s => decide (s ≠ "")

/-- JavaScript whitespace test for the characters relevant here (space,
tab, carriage return, line feed); JS trims a few more exotic code points
that never occur in this pipeline's data. -/
def jsWhite (c : Char) : Bool :=
  c = ' ' || c = '\t' || c = '\r' || c = '\n'

/-- Trim leading and trailing whitespace from a character list. -/
def trimChars (cs : List Char) : List Char :=
  ((cs.dropWhile jsWhite).reverse.dropWhile jsWhite).reverse

/-- Model of JavaScript String.prototype.trim. -/
def jsTrim (s : String) : String :=
  String.mk (trimChars s.toList)

/-- Numeric value of a decimal digit character. -/
def digitVal (c : Char) : ℕ := c.toNat - '0'.toNat

/-- Value of a list of decimal digit characters read in base 10. -/
def digitsToNat (ds : List Char) : ℕ :=
  ds.foldl (fun a c => 10 * a + digitVal c) 0

/-- Parse an optional leading sign, returning the sign as ±1 and the rest
of the input. -/
def parseSignQ : List Char → ℚ × List Char
  | '+' :: r => (1, r)
  | '-' :: r => (-1, r)
  | cs => (1, cs)

/-- Parse an unsigned decimal mantissa (ECMAScript
`DecimalDigits . DecimalDigits?` or `. DecimalDigits` or `DecimalDigits`):
returns its exact rational value and the unconsumed rest, or `none` if no
digits are present. -/
def parseUnsigned (cs : List Char) : Option (ℚ × List Char) :=
  let intPart := cs.takeWhile Char.isDigit
  let r1 := cs.dropWhile Char.isDigit
  match r1 with
  | '.' :: r2 =>
    let fracPart := r2.takeWhile Char.isDigit
    let r3 := r2.dropWhile Char.isDigit
    if intPart = [] ∧ fracPart = [] then none
    else some ((digitsToNat intPart : ℚ) +
      (digitsToNat fracPart : ℚ) / (10 : ℚ) ^ fracPart.length, r3)
  | _ => if intPart = [] then none else some ((digitsToNat intPart : ℚ), r1)

/-- Parse an optional ECMAScript ExponentPart (`e`/`E`, optional sign,
digits).  If the characters after the `e` do not form a signed integer the
input is left unconsumed, matching the longest-match backtracking of both
`Number` and `parseFloat`. -/
def parseExpOpt (cs : List Char) : Option ℤ × List Char :=
  match cs with
  | c :: rest =>
    if c = 'e' ∨ c = 'E' then
      let sgn : ℤ := match rest with
        | '+' :: _ => 1
        | '-' :: _ => -1
        | _ => 1
      let rest2 := match rest with
        | '+' :: r => r
        | '-' :: r => r
        | r => r
      let ds := rest2.takeWhile Char.isDigit
      let rest3 := rest2.dropWhile Char.isDigit
      if ds = [] then (none, cs) else (some (sgn * (digitsToNat ds : ℤ)), rest3)
    else (none, cs)
  | [] => (none, [])

/-- Model of the JavaScript `Number(string)` conversion restricted to the
inputs reachable in this program: after the regex strip the string contains
only characters from `0-9 e E . + -`, so the hex/binary/octal and
`Infinity` productions of the StringNumericLiteral grammar cannot occur.
The whole (trimmed) string must be consumed; the empty string converts to
0; otherwise a failed parse is NaN, modelled as `none`. -/
def strToNumber (s : String) : Option ℚ :=
  let cs := trimChars s.toList
  if cs = [] then some 0
  else
    let (sgn, cs1) := parseSignQ cs
    match parseUnsigned cs1 with
    | none => none
    | some (q, r) =>
      match parseExpOpt r with
      | (eo, r2) =>
        if r2 = [] then some (sgn * q * (10 : ℚ) ^ (eo.getD 0)) else none

/-- The character class kept by the strip regex `[^0-9eE.+-]` in
parseNumericValue. -/
def allowedChar (c : Char) : Bool :=
  c.isDigit || c = 'e' || c = 'E' || c = '.' || c = '+' || c = '-'

/-- Model of `String(value).replace(/[^0-9eE.+-]/g, '')`. -/
def stripNonNumeric (s : String) : String :=
  String.mk (s.toList.filter allowedChar)

/-- Model of the JavaScript `String(value)` coercion on our scalar values.
The numeric branch is unreachable from parseNumericValue (finite numbers
return early there), so the numeric rendering need not reproduce JS float
formatting; it is used only as the object-key coercion for property values
used as lookup keys. -/
def jsToDisplayString : JValue → String
  | .null => "null"
  | .bool b => if b then "true" else "false"
  | .num q => toString q
  | .str s => s

/-- Value Parser (src/src/App.jsx lines 6-12, `parseNumericValue`): the
argument is `none` for JS `undefined`, `some JValue.null` for JS null.
Finite numbers are returned as-is; anything else is coerced to a string,
stripped of every character outside `0-9 e E . + -`, and converted with
`Number`; a non-finite result yields null (`none`).  In the rational model
every number is finite. -/
def parseNumericValue : Option JValue → Option ℚ
  | none => none
  | some .null => none
  | some (.num q) => some q
  | some v =>
    match strToNumber (stripNonNumeric (jsToDisplayString v)) with
    | some q => some q
    | none => none

/-! ### Side-table (CSV) loader, src/src/App.jsx lines 662-706 -/

/-- Result of JavaScript `parseFloat`: a finite number, or positive or
negative Infinity; NaN is modelled as `none` of `Option PFloat`. -/
inductive PFloat
  | fin (q : ℚ)
  | inf
  | ninf
deriving DecidableEq

/-- Drop `pat` from the front of a character list if it is literally
there, else `none`. -/
def listDropPre : List Char → List Char → Option (List Char)
  | [], cs => some cs
  | _ :: _, [] => none
  | p :: ps, c :: cs => if c = p then listDropPre ps cs else none

/-- Remove the first occurrence of `pat` from a character list (the
behaviour of JavaScript `String.prototype.replace(pat, '')` with a string
pattern, which replaces only the first occurrence). -/
def removeFirstOcc (pat : List Char) : List Char → List Char
  | [] => []
  | c :: cs =>
    match listDropPre pat (c :: cs) with
    | some rest => rest
    | none => c :: removeFirstOcc pat cs

/-- Model of JavaScript `s.replace(pat, '')` for a non-empty literal
string pattern: removes the first occurrence of `pat`, if any. -/
def jsReplaceFirst (s pat : String) : String :=
  String.mk (removeFirstOcc pat.toList s.toList)

/-- Model of JavaScript `parseFloat`: skip leading whitespace, parse an
optional sign followed by `Infinity` or the longest decimal-literal
mantissa with optional exponent; trailing garbage is ignored; `none` is
NaN. -/
def jsParseFloat (s : String) : Option PFloat :=
  let cs := s.toList.dropWhile jsWhite
  let (sgn, cs1) := parseSignQ cs
  match listDropPre "Infinity".toList cs1 with
  | some _ => some (if sgn < 0 then .ninf else .inf)
  | none =>
    match parseUnsigned cs1 with
    | none => none
    | some (q, r) =>
      match parseExpOpt r with
      | (eo, _) => some (.fin (sgn * q * (10 : ℚ) ^ (eo.getD 0)))

/-- Model of `parseFloat(x?.trim())` where `x` may be `undefined`
(`parseFloat(undefined)` is NaN). -/
def jsParseFloatOpt : Option String → Option PFloat
  | none => none
  | some s => jsParseFloat (jsTrim s)

/-- Model of JavaScript `String.prototype.split('\n')`: split a character
list at every occurrence of the separator. -/
def splitOnChar (sep : Char) : List Char → List (List Char)
  | [] => [[]]
  | c :: rest =>
    let r := splitOnChar sep rest
    if c = sep then [] :: r
    else
      match r with
      | [] => [[c]]
      | h :: t => (c :: h) :: t

/-- CSV line splitter (src/src/App.jsx lines 668-685, `parseCSVLine`): a
character-by-character scan; a double quote toggles the in-quotes state, a
comma outside quotes ends the current field, every other character is
appended to the current field; each field is trimmed when pushed. -/
def parseCSVLine (line : String) : List String :=
  let step : List String × String × Bool → Char → List String × String × Bool :=
    fun st c =>
      let (result, current, inQuotes) := st
      if c = '"' then (result, current, !inQuotes)
      else if c = ',' ∧ inQuotes = false then (result ++ [jsTrim current], "", inQuotes)
      else (result, current.push c, inQuotes)
  let (result, current, _) := line.toList.foldl step ([], "", false)
  result ++ [jsTrim current]

/-- Model of `csvText.split('\n').filter(line => line.trim())`
(src/src/App.jsx line 666): the non-blank lines of the file. -/
def csvLines (csvText : String) : List String :=
  ((splitOnChar '\n' csvText.toList).map String.mk).filter (fun l => jsTrim l ≠ "")

/-- Model of JavaScript `Array.prototype.indexOf` on an array of strings:
the index of the first occurrence, or -1. -/
def jsIndexOf (l : List String) (s : String) : Int :=
  match l.findIdx? (fun x => x = s) with
  | some i => (i : Int)
  | none => -1

/-- Model of the JavaScript array access `values[i]` with a possibly
negative index: `undefined` (`none`) when out of range. -/
def getField (values : List String) (i : Int) : Option String :=
  if i < 0 then none else values.get? i.toNat

/-- One iteration of the pred3PEMap loading loop (src/src/App.jsx lines
692-704): the entry the row contributes, or `none` when the row is
skipped.  A row is recorded exactly when it has more fields than the
larger column index, its (raw, trimmed) GEO_ID field is non-empty, and
`parseFloat` of its PRED3_PE field is not NaN; the recorded key is the
GEO_ID with the first occurrence of "1400000US" removed. -/
def pred3PERowEntry (g p : Int) (line : String) : Option (String × PFloat) :=
  if jsTrim line = "" then none
  else
    let values := parseCSVLine line
    if (values.length : Int) > max g p then
      match (getField values g).map jsTrim with
      | some geoId =>
        if geoId ≠ "" then
          match jsParseFloatOpt (getField values p) with
          | some v => some (jsReplaceFirst geoId "1400000US", v)
          | none => none
        else none
      | none => none
    else none

/-- One step of an accumulate-entries loop: append the value of the
partial function at the element when it is defined, else keep the
accumulator. -/
def appendEntryStep {α β : Type} (f : α → Option β) (acc : List β) (x : α) :
    List β :=
  match f x with
  | some e => acc ++ [e]
  | none => acc

/-- Side-Table Joiner (src/src/App.jsx lines 662-706): split the CSV text
into non-blank lines, read the positions of the GEO_ID and PRED3_PE
columns from the header line, and fold over the remaining lines, appending
the entry of every row that is not skipped.  The recorded entries are kept
as a list in loop order (the JS object assignment `pred3PEMap[geoid] = v`
lets a later duplicate key overwrite an earlier one).  An input with no
non-blank line at all makes the JS code dereference `lines[0]`, throw, and
leave the map empty via the surrounding catch; this is the `[]` case. -/
def loadPred3PE (csvText : String) : List (String × PFloat) :=
  match csvLines csvText with
  | [] => []
  | header :: rows =>
    let headers := parseCSVLine header
    let g := jsIndexOf headers "GEO_ID"
    let p := jsIndexOf headers "PRED3_PE"
    rows.foldl (appendEntryStep (pred3PERowEntry g p)) []

/-! ### Geometry model and Coordinate Normalizer, src/src/App.jsx lines 14-70 -/

mutual
/-- The `coordinates` value of a GeoJSON geometry: either a single
coordinate pair `[x, y]` (the JS code recognises it by
`typeof coords[0] === 'number'`) or an array of nested coordinate arrays.
A mutual list type is used for the nesting so that all recursions are
plainly structural. -/
inductive CoordTree
  | pair (x y : ℝ)
  | node (children : CoordList)
inductive CoordList
  | nil
  | cons (hd : CoordTree) (tl : CoordList)
end

/-- Spherical Web-Mercator inverse (src/src/App.jsx lines 14-20,
`toWgs84Coordinate`). -/
noncomputable def toWgs84Coordinate (x y : ℝ) : ℝ × ℝ :=
  let originShift : ℝ := 20037508.34
  let lon := (x / originShift) * 180
  let lat0 := (y / originShift) * 180
  let lat := (180 / Real.pi) *
    (2 * Real.arctan (Real.exp ((lat0 * Real.pi) / 180)) - Real.pi / 2)
  (lon, lat)

mutual
/-- Recursive transform of a coordinate tree (src/src/App.jsx lines 22-28,
`transformToWgs84`): apply the Web-Mercator inverse at every pair. -/
noncomputable def transformTree : CoordTree → CoordTree
  | .pair x y => .pair (toWgs84Coordinate x y).1 (toWgs84Coordinate x y).2
  | .node cs => .node (transformList cs)
noncomputable def transformList : CoordList → CoordList
  | .nil => .nil
  | .cons c cs => .cons (transformTree c) (transformList cs)
end

mutual
/-- All coordinate pairs of a tree in depth-first order (the order in
which `walkCoordinates`, src/src/App.jsx lines 30-41, invokes its
callback). -/
def treePairs : CoordTree → List (ℝ × ℝ)
  | .pair x y => [(x, y)]
  | .node cs => listPairs cs
def listPairs : CoordList → List (ℝ × ℝ)
  | .nil => []
  | .cons c cs => treePairs c ++ listPairs cs
end

mutual
/-- The first coordinate pair found by the depth-first walk, as captured
by the `firstCoord` closure in src/src/App.jsx lines 45-52. -/
def treeFirst : CoordTree → Option (ℝ × ℝ)
  | .pair x y => some (x, y)
  | .node cs => listFirst cs
def listFirst : CoordList → Option (ℝ × ℝ)
  | .nil => none
  | .cons c cs =>
    match treeFirst c with
    | some p => some p
    | none => listFirst cs
end

/-- A GeoJSON feature: optional source-declared id, optional geometry
(`none` models both a missing and a null geometry, whose coordinates the
walker skips), and a property bag mapping names to scalar values (`none`
is an absent property, i.e. JS `undefined`). -/
structure Feature where
  id : Option JValue
  geometry : Option CoordTree
  properties : String → Option JValue

/-- A GeoJSON FeatureCollection. -/
structure FeatureCollection where
  features : List Feature

/-- Every coordinate pair of every feature of a collection, in feature
order and depth-first order within a feature. -/
def fcPairs (fc : FeatureCollection) : List (ℝ × ℝ) :=
  fc.features.flatMap fun f =>
    match f.geometry with
    | some g => treePairs g
    | none => []

/-- The first coordinate pair found over the features of a collection
(src/src/App.jsx lines 45-52: features without geometry are skipped and
the loop breaks at the first feature in which the walk finds a pair). -/
def firstCoordOf (fc : FeatureCollection) : Option (ℝ × ℝ) :=
  fc.features.findSome? fun f =>
    match f.geometry with
    | some g => treeFirst g
    | none => none

/-- Coordinate Normalizer (src/src/App.jsx lines 43-70,
`reprojectFeatureCollectionIfNeeded`): an empty collection, or one with no
coordinate pair at all, is returned unchanged; otherwise, if the first
coordinate pair found lies within [-180,180]×[-90,90] the collection is
returned unchanged, and if not, every pair of every feature's geometry is
transformed by the Web-Mercator inverse. -/
noncomputable def reprojectFeatureCollectionIfNeeded
    (fc : FeatureCollection) : FeatureCollection :=
  if fc.features.isEmpty then fc
  else
    match firstCoordOf fc with
    | none => fc
    | some (x, y) =>
      if |x| > 180 ∨ |y| > 90 then
        { fc with
          features := fc.features.map fun f =>
            match f.geometry with
            | none => f
            | some g => { f with geometry := some (transformTree g) } }
      else fc

/-! ### Statistics builder and color expressions, src/src/App.jsx lines 72-78 and 272-305 -/

/-- The {min, mid, max} summary of a numeric field; `none` bounds when
there is no sample. -/
structure RangeStats where
  min : Option ℚ
  mid : Option ℚ
  max : Option ℚ
deriving DecidableEq

/-- Statistics builder (src/src/App.jsx lines 72-78, `getRangeStats`): an
empty sample list yields null bounds; otherwise min, max and the midpoint
min + (max - min) / 2 (`Math.min`/`Math.max` over a spread argument
list). -/
def getRangeStats (values : List ℚ) : RangeStats :=
  match values with
  | [] => ⟨none, none, none⟩
  | v :: vs =>
    let mn := vs.foldl Min.min v
    let mx := vs.foldl Max.max v
    ⟨some mn, some (mn + (mx - mn) / 2), some mx⟩

/-- The subset of the declarative map-styling expression language built by
this program for the PRED3_PE layer: string literals, property access,
typeof, equality, a single-condition case, and linear interpolation over
color stops (the shape `['case', cond, then, else]` built at
src/src/App.jsx lines 272-305 always has exactly one condition). -/
inductive MapExpr
  | lit (s : String)
  | getProp (key : String)
  | typeOf (e : MapExpr)
  | eq (a b : MapExpr)
  | caseSingle (cond thenE elseE : MapExpr)
  | interpolateLinear (input : MapExpr) (stops : List (ℚ × String))

/-- The `typeof` string of a scalar value in the map expression
language. -/
def typeofString : JValue → String
  | .null => "null"
  | .bool _ => "boolean"
  | .num _ => "number"
  | .str _ => "string"

/-- Evaluator for the modelled expression subset against one feature.
`get` of an absent property yields null; `case` requires its condition to
evaluate to a boolean.  Evaluating a linear color interpolation (blending
hex colors) belongs to the renderer and is not modelled: it yields `none`;
no claim depends on its value. -/
def evalExpr : MapExpr → Feature → Option JValue
  | .lit s, _ => some (.str s)
  | .getProp k, f =>
    some (match f.properties k with
      | some v => v
      | none => .null)
  | .typeOf e, f =>
    match evalExpr e f with
    | some v => some (.str (typeofString v))
    | none => none
  | .eq a b, f =>
    match evalExpr a f, evalExpr b f with
    | some x, some y => some (.bool (decide (x = y)))
    | _, _ => none
  | .caseSingle c t e, f =>
    match evalExpr c f with
    | some (.bool true) => evalExpr t f
    | some (.bool false) => evalExpr e f
    | _ => none
  | .interpolateLinear _ _, _ => none

/-- The fallback (gray) color used for unmatched or null categories. -/
def fallbackColor : String := "#9e9e9e"

/-- Continuous color expression for the PRED3_PE layer (src/src/App.jsx
lines 272-305, `buildPred3PEColorExpression`): with null bounds, a case
expression whose two outcomes are both the fallback color; with equal
bounds, a flat green for numbers and the fallback otherwise; with distinct
bounds, a five-stop linear ramp from min to max guarded by a numeric
typeof test. -/
def buildPred3PEColorExpression (s : RangeStats) : MapExpr :=
  match s.min, s.max with
  | some mn, some mx =>
    if mn = mx then
      .caseSingle (.eq (.typeOf (.getProp "__pred3PE")) (.lit "number"))
        (.lit "#4CAF50") (.lit fallbackColor)
    else
      .caseSingle (.eq (.typeOf (.getProp "__pred3PE")) (.lit "number"))
        (.interpolateLinear (.getProp "__pred3PE")
          [(mn, "#4CAF50"),
           (mn + (mx - mn) * 0.25, "#8BC34A"),
           (mn + (mx - mn) * 0.5, "#FFC107"),
           (mn + (mx - mn) * 0.75, "#FF6F00"),
           (mx, "#B71C1C")])
        (.lit fallbackColor)
  | _, _ =>
    .caseSingle (.eq (.typeOf (.getProp "__pred3PE")) (.lit "number"))
      (.lit fallbackColor) (.lit fallbackColor)

/-! ### Feature Classifier, src/src/App.jsx lines 718-776 -/

/-- Property name of the categorical FEMA risk rating. -/
def riskRatingKey : String := "T_FEMA_National_Risk_Index_$_.FEMAIndexRating"

/-- Property name of the raw population figure. -/
def populationKey : String :=
  "T_CENSUS_Community_Resilience_Est$_.Total_population__excludes_adult_correctional_juvenile_facilitie"

/-- Property name of the census-tract GEOID used for the side-table
join. -/
def geoidKey : String := "L0Census_Tracts.GEOID"

/-- JavaScript null-coalescing `a ?? b`: `b` exactly when `a` is null or
undefined. -/
def jsCoalesce (a b : Option JValue) : Option JValue :=
  match a with
  | some v => if v = JValue.null then b else some v
  | none => b

/-- One step of the Classifier (src/src/App.jsx lines 720-739, the
`processedFeatures` map): copy the feature, assign
`id = feature.id ?? geoid ?? index`, and extend the property bag with
`__riskRating` (the risk property if truthy, else null), `__population`
(the population property through the Value Parser, else null) and
`__pred3PE` (the side-table value under the GEOID key if the GEOID is
truthy and the lookup hits, else null).  `pm` is the side-table mapping
(`pred3PEDataRef.current`), with object keys reached through the JS
string coercion of the property value. -/
def processFeature (pm : String → Option ℚ) (idx : ℕ) (f : Feature) : Feature :=
  let props := f.properties
  let riskRating : JValue :=
    match props riskRatingKey with
    | some v => if jsTruthy v then v else .null
    | none => .null
  let populationValue : Option ℚ := parseNumericValue (props populationKey)
  let geoid : Option JValue := props geoidKey
  let pred3PE : Option ℚ :=
    match geoid with
    | some g => if jsTruthy g then pm (jsToDisplayString g) else none
    | none => none
  { id := jsCoalesce f.id (jsCoalesce geoid (some (.num idx))),
    geometry := f.geometry,
    properties := fun k =>
      if k = "__riskRating" then some riskRating
      else if k = "__population" then
        some (match populationValue with
          | some q => JValue.num q
          | none => JValue.null)
      else if k = "__pred3PE" then
        some (match pred3PE with
          | some q => JValue.num q
          | none => JValue.null)
      else props k }

/-- The Classifier over a whole feature list (the `.map((feature, index)
=> ...)` at src/src/App.jsx line 720). -/
def processedFeatures (pm : String → Option ℚ) (fs : List Feature) : List Feature :=
  fs.mapIdx fun i f => processFeature pm i f

/-- The qualifying PRED3_PE samples of a processed feature list
(src/src/App.jsx lines 752-754): the `__pred3PE` property values that are
finite numbers. -/
def pred3PEValues (fs : List Feature) : List ℚ :=
  fs.filterMap fun f =>
    match f.properties "__pred3PE" with
    | some (.num q) => some q
    | _ => none

/-- The PRED3_PE entry of the statistics payload (src/src/App.jsx line
759). -/
def pred3PEStatsOf (fs : List Feature) : RangeStats :=
  getRangeStats (pred3PEValues fs)

/-! ### Ray-casting containment test, src/src/App.jsx lines 154-168 -/

/-- Ray casting point-in-polygon test (src/src/App.jsx lines 154-168,
`isPointInDistrict`): walk the edges (vertex i, vertex j) with j the
predecessor index (the last vertex for i = 0) and toggle `inside` at every
edge whose vertical span strictly straddles the point's latitude and whose
crossing lies to the right of the point.  Coordinates are exact rationals;
the arithmetic involves only field operations and comparisons. -/
def isPointInDistrict (point : ℚ × ℚ) (districtCoords : List (ℚ × ℚ)) : Bool :=
  let n := districtCoords.length
  (List.range n).foldl
    (fun inside i =>
      let j := if i = 0 then n - 1 else i - 1
      let vi := districtCoords.getD i (0, 0)
      let vj := districtCoords.getD j (0, 0)
      let intersect :=
        (decide (vi.2 > point.2) != decide (vj.2 > point.2)) &&
        decide (point.1 < (vj.1 - vi.1) * (point.2 - vi.2) / (vj.2 - vi.2) + vi.1)
      if intersect then !inside else inside)
    false

/-! ### Concrete fixtures used by counterexamples and witnesses -/

/-- The empty side-table mapping. -/
def emptyPM : String → Option ℚ := fun _ => none

/-- A feature with one ordinary property, no id and no geometry. -/
def sampleFeature : Feature :=
  ⟨none, none, fun k => if k = "name" then some (.str "Park") else none⟩

/-- A feature with a source-declared id. -/
def featWithId : Feature := ⟨some (.str "A1"), none, fun _ => none⟩

/-- A feature with no id but a GEOID join property. -/
def featWithGeoid : Feature :=
  ⟨none, none, fun k => if k = geoidKey then some (.str "12086000107") else none⟩

/-- A feature with neither id nor GEOID. -/
def featBare : Feature := ⟨none, none, fun _ => none⟩

/-- A collection whose first coordinate pair (0, 0) is within geographic
bounds but whose second pair (1000000, 0) is far outside them: the
Normalizer's first-pair heuristic takes the fast path and returns it
unchanged. -/
def fcFastPath : FeatureCollection :=
  ⟨[⟨none, some (.node (.cons (.pair 0 0) (.cons (.pair 1000000 0) .nil))),
    fun _ => none⟩]⟩

/-- A collection whose only coordinate pair (1, 2) is within geographic
bounds. -/
def fcInBounds : FeatureCollection :=
  ⟨[⟨none, some (.pair 1 2), fun _ => none⟩]⟩

/-- A collection whose only coordinate pair (300, 0) is outside geographic
bounds, so the Normalizer reprojects it. -/
def fcProjected : FeatureCollection :=
  ⟨[⟨none, some (.pair 300 0), fun _ => none⟩]⟩

/-! ## Theorems -/

@[simp] theorem digitVal_0 : digitVal '0' = 0 := by decide
@[simp] theorem digitVal_1 : digitVal '1' = 1 := by decide
@[simp] theorem digitVal_2 : digitVal '2' = 2 := by decide
@[simp] theorem digitVal_3 : digitVal '3' = 3 := by decide
@[simp] theorem digitVal_4 : digitVal '4' = 4 := by decide
@[simp] theorem digitVal_5 : digitVal '5' = 5 := by decide
@[simp] theorem digitVal_6 : digitVal '6' = 6 := by decide
@[simp] theorem digitVal_7 : digitVal '7' = 7 := by decide
@[simp] theorem digitVal_8 : digitVal '8' = 8 := by decide
@[simp] theorem digitVal_9 : digitVal '9' = 9 := by decide

/-- C1: evaluation of the Value Parser at the documented test vectors.
Three of the four vectors hold: "$1,234.56" parses to 1234.56, "12.5%" to
12.5, and null to null.  The fourth diverges from the claim: for "abc" the
strip leaves the empty string, JavaScript coerces the empty string to the
number 0, and 0 is finite, so parseNumericValue returns 0, not the null
demanded by the documented failure semantics. -/
theorem parseNumericValue_documented_vectors :
    parseNumericValue (some (.str "$1,234.56")) = some (1234.56 : ℚ) ∧
    parseNumericValue (some (.str "12.5%")) = some (12.5 : ℚ) ∧
    parseNumericValue (some .null) = none ∧
    parseNumericValue (some (.str "abc")) = some 0 := by
  refine ⟨?_, ?_, by decide, by decide⟩ <;>
  · simp +decide [parseNumericValue, jsToDisplayString, stripNonNumeric, strToNumber,
      trimChars, jsWhite, allowedChar, parseSignQ, parseUnsigned, parseExpOpt,
      digitsToNat, String.toList, List.foldl]
    norm_num

/-- C5: the CSV line parser honors quoted fields and the joiner builds the
documented mapping.  With header GEO_ID,PRED3_PE, the quoted row
"1400000US12086000107","3.14" yields exactly the entry
"12086000107" ↦ 3.14; a row whose value column is non-numeric is skipped
(empty output); and a quoted field containing a literal comma is parsed as
one field, so "Miami, FL",42 yields exactly the fields `Miami, FL` and
`42`. -/
theorem csv_joiner_documented_vectors :
    parseCSVLine "\"Miami, FL\",42" = ["Miami, FL", "42"] ∧
    loadPred3PE "GEO_ID,PRED3_PE\n\"1400000US12086000107\",\"3.14\"" =
      [("12086000107", .fin (3.14 : ℚ))] ∧
    loadPred3PE "GEO_ID,PRED3_PE\n\"1400000US12086000108\",\"abc\"" = [] := by
  refine ⟨by decide, ?_, by decide⟩
  simp +decide [loadPred3PE, csvLines, splitOnChar, parseCSVLine, jsTrim, trimChars,
    jsWhite, jsIndexOf, getField, pred3PERowEntry, jsParseFloatOpt, jsParseFloat,
    parseSignQ, parseUnsigned, parseExpOpt, digitsToNat, listDropPre, jsReplaceFirst,
    removeFirstOcc, appendEntryStep]
  norm_num

/-- Folding a list while appending the value of every element on which a
partial function is defined produces the accumulator followed by the
filterMap of the function; this is the shape of the pred3PEMap loading
loop. -/
theorem foldl_append_filterMap {α β : Type} (f : α → Option β)
    (l : List α) (acc : List β) :
    l.foldl (appendEntryStep f) acc = acc ++ l.filterMap f := by
  induction l generalizing acc with
  | nil => simp
  | cons hd tl ih =>
    rw [List.foldl_cons, List.filterMap_cons]
    cases h : f hd with
    | none => simp only [appendEntryStep, h, ih]
    | some e =>
      simp only [appendEntryStep, h, ih, List.append_assoc, List.singleton_append]

/-- A row is skipped when the GEO_ID column is absent from the header
(index -1): the identifier field access yields `undefined`. -/
theorem pred3PERowEntry_no_geoid (p : Int) (line : String) :
    pred3PERowEntry (-1) p line = none := by
  unfold pred3PERowEntry
  split
  · rfl
  · dsimp only
    split
    · rfl
    · rfl

/-- A row is skipped when the PRED3_PE column is absent from the header
(index -1): `parseFloat(undefined)` is NaN. -/
theorem pred3PERowEntry_no_pred3pe (g : Int) (line : String) :
    pred3PERowEntry g (-1) line = none := by
  unfold pred3PERowEntry
  split
  · rfl
  · dsimp only
    split
    · cases hm : (getField (parseCSVLine line) g).map jsTrim with
      | none => rfl
      | some s =>
        dsimp only
        split
        · rfl
        · rfl
    · rfl

/-- C6: if either configured column name (GEO_ID or PRED3_PE) is absent
from the side table's header row, the loader records no entry for any data
row of any input body: the mapping is empty, with no exception and no
partial entries. -/
theorem loadPred3PE_inert_when_column_missing (csvText header : String)
    (rows : List String)
    (hsplit : csvLines csvText = header :: rows)
    (habsent : jsIndexOf (parseCSVLine header) "GEO_ID" = -1 ∨
      jsIndexOf (parseCSVLine header) "PRED3_PE" = -1) :
    loadPred3PE csvText = [] := by
  unfold loadPred3PE
  rw [hsplit]
  dsimp only
  rw [foldl_append_filterMap]
  rw [List.nil_append, List.filterMap_eq_nil_iff]
  intro line hline
  rcases habsent with h | h
  · rw [h, pred3PERowEntry_no_geoid]
  · rw [h, pred3PERowEntry_no_pred3pe]

/-- C4 counterexample: the claim demands that a row is recorded only when
the normalized key (after stripping "1400000US") is non-empty, but the
code checks the raw identifier before stripping, so the data row
`1400000US,3.14` — whose normalized key is empty — is recorded: not every
recorded entry has a non-empty key. -/
theorem loadPred3PE_records_empty_key :
    ¬ (∀ e ∈ loadPred3PE "GEO_ID,PRED3_PE\n1400000US,3.14", e.1 ≠ "") := by
  intro h
  have hl : loadPred3PE "GEO_ID,PRED3_PE\n1400000US,3.14" =
      [("", PFloat.fin (3.14 : ℚ))] := by
    simp +decide [loadPred3PE, csvLines, splitOnChar, parseCSVLine, jsTrim, trimChars,
      jsWhite, jsIndexOf, getField, pred3PERowEntry, jsParseFloatOpt, jsParseFloat,
      parseSignQ, parseUnsigned, parseExpOpt, digitsToNat, listDropPre, jsReplaceFirst,
      removeFirstOcc, appendEntryStep]
    norm_num
  exact h ("", PFloat.fin (3.14 : ℚ)) (by rw [hl]; exact List.mem_singleton.mpr rfl) rfl

/-- Every data line produced by the blank-line filter of csvLines is
non-blank. -/
theorem csvLines_rows_nonblank (csvText header : String) (rows : List String)
    (hsplit : csvLines csvText = header :: rows) :
    ∀ line ∈ rows, jsTrim line ≠ "" := by
  intro line hline
  have hmem : line ∈ csvLines csvText := by
    rw [hsplit]; exact List.mem_cons_of_mem _ hline
  unfold csvLines at hmem
  have := List.of_mem_filter hmem
  simpa using this

/-- C4 amended: for every side-table body with a header row, the loader
records, in row order and independently across rows (a skipped row leaves
the other entries untouched), exactly one entry per data row that (i) has
more fields than the larger of the two configured column indices, (ii)
has a non-empty raw trimmed identifier field — the emptiness test runs
before the prefix is stripped, so a row whose identifier equals the bare
prefix is recorded under the empty key — and (iii) has a value field that
parseFloat does not map to NaN (an infinite parse is accepted; finiteness
is not required).  The recorded entry maps the identifier with the first
occurrence of "1400000US" removed to the parsed value. -/
theorem loadPred3PE_row_characterization (csvText header : String)
    (rows : List String)
    (hsplit : csvLines csvText = header :: rows) :
    loadPred3PE csvText =
      rows.filterMap (pred3PERowEntry (jsIndexOf (parseCSVLine header) "GEO_ID")
        (jsIndexOf (parseCSVLine header) "PRED3_PE")) ∧
    (∀ g p : Int, ∀ line ∈ rows,
      (pred3PERowEntry g p line ≠ none ↔
        (((parseCSVLine line).length : Int) > max g p ∧
         (∃ s, getField (parseCSVLine line) g = some s ∧ jsTrim s ≠ "") ∧
         jsParseFloatOpt (getField (parseCSVLine line) p) ≠ none))) ∧
    (∀ g p : Int, ∀ line k v, pred3PERowEntry g p line = some (k, v) →
      ∃ s, getField (parseCSVLine line) g = some s ∧
        k = jsReplaceFirst (jsTrim s) "1400000US" ∧
        jsParseFloatOpt (getField (parseCSVLine line) p) = some v) := by
  refine ⟨?_, ?_, ?_⟩
  · unfold loadPred3PE
    rw [hsplit]
    dsimp only
    rw [foldl_append_filterMap, List.nil_append]
  · intro g p line hline
    have hnb := csvLines_rows_nonblank csvText header rows hsplit line hline
    unfold pred3PERowEntry
    rw [if_neg hnb]
    dsimp only
    constructor
    · intro hne
      split at hne
      · rename_i hlen
        refine ⟨hlen, ?_⟩
        cases hg : (getField (parseCSVLine line) g).map jsTrim with
        | none => rw [hg] at hne; exact absurd rfl hne
        | some t =>
          rw [hg] at hne
          dsimp only at hne
          obtain ⟨s, hs, hts⟩ := Option.map_eq_some'.mp hg
          by_cases ht : t ≠ ""
          · rw [if_pos ht] at hne
            refine ⟨⟨s, hs, hts ▸ ht⟩, ?_⟩
            intro hpf
            rw [hpf] at hne
            exact hne rfl
          · rw [if_neg ht] at hne
            exact absurd rfl hne
      · exact absurd rfl hne
    · rintro ⟨hlen, ⟨s, hs, hsne⟩, hpf⟩
      rw [if_pos hlen]
      rw [hs]
      dsimp only [Option.map]
      rw [if_pos hsne]
      cases hv : jsParseFloatOpt (getField (parseCSVLine line) p) with
      | none => exact absurd hv hpf
      | some v =>
        intro hc
        exact Option.noConfusion hc
  · intro g p line k v hkv
    unfold pred3PERowEntry at hkv
    split at hkv
    · exact absurd hkv (by simp)
    · dsimp only at hkv
      split at hkv
      · rename_i hlen
        cases hg : (getField (parseCSVLine line) g).map jsTrim with
        | none => rw [hg] at hkv; exact absurd hkv (by simp)
        | some t =>
          rw [hg] at hkv
          dsimp only at hkv
          obtain ⟨s, hs, hts⟩ := Option.map_eq_some'.mp hg
          by_cases ht : t ≠ ""
          · rw [if_pos ht] at hkv
            cases hv : jsParseFloatOpt (getField (parseCSVLine line) p) with
            | none => rw [hv] at hkv; exact absurd hkv (by simp)
            | some w =>
              rw [hv] at hkv
              have h2 := Option.some.inj hkv
              have hk1 : jsReplaceFirst t "1400000US" = k := congrArg Prod.fst h2
              have hk2 : w = v := congrArg Prod.snd h2
              exact ⟨s, hs, by rw [hts, hk1], by rw [hk2]⟩
          · rw [if_neg ht] at hkv
            exact absurd hkv (by simp)
      · exact absurd hkv (by simp)

/-- C4 witness: a concrete body with one recorded row and one skipped
(non-numeric) row satisfies the row characterization. -/
theorem loadPred3PE_row_characterization_witness :
    csvLines "GEO_ID,PRED3_PE\n1400000US12,7\nX,none" =
      ["GEO_ID,PRED3_PE", "1400000US12,7", "X,none"] ∧
    loadPred3PE "GEO_ID,PRED3_PE\n1400000US12,7\nX,none" =
      List.filterMap
        (pred3PERowEntry (jsIndexOf (parseCSVLine "GEO_ID,PRED3_PE") "GEO_ID")
          (jsIndexOf (parseCSVLine "GEO_ID,PRED3_PE") "PRED3_PE"))
        ["1400000US12,7", "X,none"] :=
  ⟨by decide,
    (loadPred3PE_row_characterization _ "GEO_ID,PRED3_PE"
      ["1400000US12,7", "X,none"] (by decide)).1⟩

/-- C6 witness: a concrete body whose header lacks the PRED3_PE column
loads to the empty mapping. -/
theorem loadPred3PE_inert_witness :
    csvLines "GEO_ID,OTHER\n1400000US12086000107,3.14" =
      ["GEO_ID,OTHER", "1400000US12086000107,3.14"] ∧
    jsIndexOf (parseCSVLine "GEO_ID,OTHER") "PRED3_PE" = -1 ∧
    loadPred3PE "GEO_ID,OTHER\n1400000US12086000107,3.14" = [] := by
  refine ⟨by decide, by decide, ?_⟩
  exact loadPred3PE_inert_when_column_missing _ "GEO_ID,OTHER"
    ["1400000US12086000107,3.14"] (by decide) (Or.inr (by decide))

/-- Folding a function that fixes every accumulator on every element of
the list leaves the initial accumulator unchanged. -/
theorem foldl_fixes {α β : Type} (f : β → α → β) (l : List α) (b : β)
    (h : ∀ x ∈ l, ∀ acc, f acc x = acc) : l.foldl f b = b := by
  induction l generalizing b with
  | nil => rfl
  | cons hd tl ih =>
    rw [List.foldl_cons, h hd (List.mem_cons_self hd tl)]
    exact ih _ fun x hx acc => h x (List.mem_cons_of_mem hd hx) acc

/-- C10: for every polygon vertex list and every query point whose
latitude is strictly below every vertex latitude or strictly above every
vertex latitude, the ray-casting test isPointInDistrict classifies the
point as outside: no edge straddles the query latitude, so the inside flag
is never toggled. -/
theorem isPointInDistrict_outside_lat_range (point : ℚ × ℚ)
    (coords : List (ℚ × ℚ))
    (h : (∀ v ∈ coords, v.2 < point.2) ∨ (∀ v ∈ coords, point.2 < v.2)) :
    isPointInDistrict point coords = false := by
  unfold isPointInDistrict
  apply foldl_fixes
  intro i hi acc
  have hin : i < coords.length := List.mem_range.mp hi
  have hjn : (if i = 0 then coords.length - 1 else i - 1) < coords.length := by
    split <;> omega
  have hvi : coords.getD i (0, 0) ∈ coords := by
    rw [List.getD_eq_getElem coords (0, 0) hin]
    exact List.getElem_mem hin
  have hvj : coords.getD (if i = 0 then coords.length - 1 else i - 1) (0, 0) ∈ coords := by
    rw [List.getD_eq_getElem coords (0, 0) hjn]
    exact List.getElem_mem hjn
  rcases h with hlt | hgt
  · have h1 : decide ((coords.getD i (0, 0)).2 > point.2) = false := by
      simp only [decide_eq_false_iff_not, gt_iff_lt, not_lt]
      exact le_of_lt (hlt _ hvi)
    have h2 : decide ((coords.getD (if i = 0 then coords.length - 1 else i - 1) (0, 0)).2 > point.2) = false := by
      simp only [decide_eq_false_iff_not, gt_iff_lt, not_lt]
      exact le_of_lt (hlt _ hvj)
    dsimp only
    rw [h1, h2]
    rfl
  · have h1 : decide ((coords.getD i (0, 0)).2 > point.2) = true := by
      simp only [decide_eq_true_eq, gt_iff_lt]
      exact hgt _ hvi
    have h2 : decide ((coords.getD (if i = 0 then coords.length - 1 else i - 1) (0, 0)).2 > point.2) = true := by
      simp only [decide_eq_true_eq, gt_iff_lt]
      exact hgt _ hvj
    dsimp only
    rw [h1, h2]
    rfl

/-- C10 witness: the point (0, 10) lies strictly above every vertex of the
triangle (0,0), (4,0), (2,3) and is classified as outside. -/
theorem isPointInDistrict_outside_lat_range_witness :
    (∀ v ∈ [((0 : ℚ), (0 : ℚ)), (4, 0), (2, 3)], v.2 < (((0 : ℚ), (10 : ℚ)) : ℚ × ℚ).2) ∧
    isPointInDistrict (0, 10) [(0, 0), (4, 0), (2, 3)] = false :=
  ⟨by decide,
    isPointInDistrict_outside_lat_range (0, 10) [(0, 0), (4, 0), (2, 3)]
      (Or.inl (by decide))⟩

/-- C7: a feature collection with zero non-null qualifying samples for the
PRED3_PE field yields null statistics bounds {min, mid, max} = {null,
null, null}, and the continuous color expression built from those
statistics evaluates to the fallback gray for every feature, whatever that
feature's own __pred3PE value is. -/
theorem pred3PE_no_samples_degenerates (fs : List Feature)
    (h : pred3PEValues fs = []) :
    pred3PEStatsOf fs = ⟨none, none, none⟩ ∧
    ∀ f : Feature,
      evalExpr (buildPred3PEColorExpression (pred3PEStatsOf fs)) f =
        some (.str fallbackColor) := by
  have hs : pred3PEStatsOf fs = ⟨none, none, none⟩ := by
    unfold pred3PEStatsOf
    rw [h]
    rfl
  refine ⟨hs, fun f => ?_⟩
  rw [hs]
  show evalExpr (.caseSingle (.eq (.typeOf (.getProp "__pred3PE")) (.lit "number"))
    (.lit fallbackColor) (.lit fallbackColor)) f = some (.str fallbackColor)
  cases hv : f.properties "__pred3PE" with
  | none => simp +decide [evalExpr, hv, typeofString, fallbackColor]
  | some v => cases v <;> simp +decide [evalExpr, hv, typeofString, fallbackColor]

/-- C7 witness: the empty collection has no qualifying sample; its
statistics are null and the expression evaluates to gray on a concrete
feature with no properties. -/
theorem pred3PE_no_samples_degenerates_witness :
    pred3PEValues [] = [] ∧
    pred3PEStatsOf [] = ⟨none, none, none⟩ ∧
    evalExpr (buildPred3PEColorExpression (pred3PEStatsOf []))
      ⟨none, none, fun _ => none⟩ = some (.str fallbackColor) :=
  ⟨rfl, (pred3PE_no_samples_degenerates [] rfl).1,
    (pred3PE_no_samples_degenerates [] rfl).2 ⟨none, none, fun _ => none⟩⟩

/-- Null-coalescing with an unconditionally present right operand always
produces a value. -/
theorem jsCoalesce_some_right (a : Option JValue) (b : JValue) :
    ∃ v, jsCoalesce a (some b) = some v := by
  unfold jsCoalesce
  cases a with
  | none => exact ⟨b, rfl⟩
  | some v =>
    dsimp only
    by_cases hv : v = JValue.null
    · rw [if_pos hv]; exact ⟨b, rfl⟩
    · rw [if_neg hv]; exact ⟨v, rfl⟩

/-- The i-th output of the Classifier is the processed i-th input. -/
theorem processedFeatures_get (pm : String → Option ℚ) (fs : List Feature)
    (i : ℕ) (f g : Feature)
    (hf : fs.get? i = some f)
    (hg : (processedFeatures pm fs).get? i = some g) :
    g = processFeature pm i f := by
  obtain ⟨hi, hget⟩ := List.get?_eq_some.mp hf
  have hlen : (processedFeatures pm fs).length = fs.length := by
    simp [processedFeatures]
  have hi' : i < (processedFeatures pm fs).length := by rw [hlen]; exact hi
  rw [List.get?_eq_get hi'] at hg
  have hg2 := (Option.some.inj hg).symm
  rw [hg2]
  unfold processedFeatures
  rw [List.get_mapIdx fs (fun i f => processFeature pm i f) i hi]
  rw [hget]

/-- C8: the Classifier maps each input feature to exactly one output
feature at the same position (no feature is dropped or reordered), leaves
the geometry and every property other than the three enrichment names
unchanged, always adds the properties __riskRating, __population and
__pred3PE — each null when its source data is absent — and always assigns
an id. -/
theorem processedFeatures_frame (pm : String → Option ℚ) (fs : List Feature)
    (i : ℕ) (f g : Feature)
    (hf : fs.get? i = some f)
    (hg : (processedFeatures pm fs).get? i = some g) :
    (processedFeatures pm fs).length = fs.length ∧
    g.geometry = f.geometry ∧
    (∀ k, k ≠ "__riskRating" → k ≠ "__population" → k ≠ "__pred3PE" →
      g.properties k = f.properties k) ∧
    (∃ v, g.properties "__riskRating" = some v) ∧
    (∃ v, g.properties "__population" = some v) ∧
    (∃ v, g.properties "__pred3PE" = some v) ∧
    (f.properties riskRatingKey = none →
      g.properties "__riskRating" = some .null) ∧
    (f.properties populationKey = none →
      g.properties "__population" = some .null) ∧
    (f.properties geoidKey = none →
      g.properties "__pred3PE" = some .null) ∧
    (∃ v, g.id = some v) := by
  have hlen : (processedFeatures pm fs).length = fs.length := by
    simp [processedFeatures]
  have hgf := processedFeatures_get pm fs i f g hf hg
  subst hgf
  refine ⟨hlen, rfl, ?_, ⟨_, rfl⟩, ⟨_, rfl⟩, ⟨_, rfl⟩, ?_, ?_, ?_, ?_⟩
  · intro k hk1 hk2 hk3
    simp only [processFeature, if_neg hk1, if_neg hk2, if_neg hk3]
  · intro hmiss
    simp +decide [processFeature, hmiss]
  · intro hmiss
    simp +decide [processFeature, hmiss]
  · intro hmiss
    simp +decide [processFeature, hmiss]
  · show ∃ v, jsCoalesce f.id
      (jsCoalesce (f.properties geoidKey) (some (.num i))) = some v
    obtain ⟨w, hw⟩ := jsCoalesce_some_right (f.properties geoidKey) (.num i)
    rw [hw]
    exact jsCoalesce_some_right f.id w

/-- C8 witness: a one-feature collection with an ordinary `name`
property; its processed output sits at index 0, keeps the geometry and
the `name` property, and carries the three enrichment properties and an
id. -/
theorem processedFeatures_frame_witness :
    ([sampleFeature].get? 0 = some sampleFeature) ∧
    ((processedFeatures emptyPM [sampleFeature]).get? 0 =
      some (processFeature emptyPM 0 sampleFeature)) ∧
    (processedFeatures emptyPM [sampleFeature]).length = 1 ∧
    (processFeature emptyPM 0 sampleFeature).geometry = sampleFeature.geometry ∧
    (processFeature emptyPM 0 sampleFeature).properties "name" =
      sampleFeature.properties "name" ∧
    (∃ v, (processFeature emptyPM 0 sampleFeature).id = some v) := by
  have hg : (processedFeatures emptyPM [sampleFeature]).get? 0 =
      some (processFeature emptyPM 0 sampleFeature) := by
    simp [processedFeatures]
  have h := processedFeatures_frame emptyPM [sampleFeature] 0 sampleFeature
    (processFeature emptyPM 0 sampleFeature) rfl hg
  exact ⟨rfl, hg, h.1, h.2.1,
    h.2.2.1 "name" (by decide) (by decide) (by decide),
    h.2.2.2.2.2.2.2.2.2⟩

/-- C9: the Classifier assigns the feature identifier by first match:
the source-declared id when it is neither null nor undefined; otherwise
the GEOID join property when it is neither null nor undefined; otherwise
the feature's ordinal index. -/
theorem processFeature_id_precedence (pm : String → Option ℚ) (idx : ℕ)
    (f : Feature) :
    (∀ v, f.id = some v → v ≠ .null → (processFeature pm idx f).id = some v) ∧
    ((f.id = none ∨ f.id = some .null) →
      ∀ g, f.properties geoidKey = some g → g ≠ .null →
        (processFeature pm idx f).id = some g) ∧
    ((f.id = none ∨ f.id = some .null) →
      (f.properties geoidKey = none ∨ f.properties geoidKey = some .null) →
      (processFeature pm idx f).id = some (.num idx)) := by
  refine ⟨?_, ?_, ?_⟩
  · intro v hv hvn
    simp only [processFeature, jsCoalesce, hv, if_neg hvn]
  · intro hid g hg hgn
    rcases hid with hid | hid <;>
      simp +decide [processFeature, jsCoalesce, hid, hg, if_neg hgn]
  · intro hid hgeo
    rcases hid with hid | hid <;> rcases hgeo with hgeo | hgeo <;>
      simp +decide [processFeature, jsCoalesce, hid, hgeo]

/-- C9 witness: three concrete features exercising the three branches of
the precedence: a declared id wins, else the GEOID property, else the
ordinal index. -/
theorem processFeature_id_precedence_witness :
    (processFeature emptyPM 5 featWithId).id = some (.str "A1") ∧
    (processFeature emptyPM 5 featWithGeoid).id = some (.str "12086000107") ∧
    (processFeature emptyPM 5 featBare).id = some (.num 5) :=
  ⟨(processFeature_id_precedence emptyPM 5 featWithId).1 (.str "A1") rfl
      (by decide),
    (processFeature_id_precedence emptyPM 5 featWithGeoid).2.1 (Or.inl rfl)
      (.str "12086000107") (by decide) (by decide),
    (processFeature_id_precedence emptyPM 5 featBare).2.2 (Or.inl rfl)
      (Or.inl rfl)⟩

mutual
/-- The first pair found by the depth-first walk of a tree is one of the
tree's pairs. -/
theorem treeFirst_mem : ∀ (t : CoordTree) (p : ℝ × ℝ),
    treeFirst t = some p → p ∈ treePairs t
  | .pair x y, p, h => by
    simp only [treeFirst, Option.some.injEq] at h
    simp [treePairs, h.symm]
  | .node cs, p, h => listFirst_mem cs p h
theorem listFirst_mem : ∀ (l : CoordList) (p : ℝ × ℝ),
    listFirst l = some p → p ∈ listPairs l
  | .nil, p, h => by simp [listFirst] at h
  | .cons c cs, p, h => by
    rw [listFirst] at h
    cases hc : treeFirst c with
    | some q =>
      rw [hc] at h
      have hq := Option.some.inj h
      rw [listPairs]
      exact List.mem_append_left _ (treeFirst_mem c p (hq ▸ hc))
    | none =>
      rw [hc] at h
      rw [listPairs]
      exact List.mem_append_right _ (listFirst_mem cs p h)
end

/-- The first coordinate pair the Normalizer finds in a collection is one
of the collection's pairs. -/
theorem firstCoordOf_mem (fs : List Feature) (p : ℝ × ℝ)
    (h : (List.findSome? (fun f =>
      match f.geometry with
      | some g => treeFirst g
      | none => none) fs) = some p) :
    p ∈ fs.flatMap fun f =>
      match f.geometry with
      | some g => treePairs g
      | none => [] := by
  induction fs with
  | nil => simp [List.findSome?] at h
  | cons f fs ih =>
    rw [List.findSome?_cons] at h
    cases hg : f.geometry with
    | none =>
      rw [hg] at h
      simp only [List.flatMap_cons, hg]
      exact List.mem_append_right _ (ih h)
    | some g =>
      rw [hg] at h
      dsimp only at h
      cases ht : treeFirst g with
      | none =>
        rw [ht] at h
        simp only [List.flatMap_cons, hg]
        exact List.mem_append_right _ (ih h)
      | some q =>
        rw [ht] at h
        have hq := Option.some.inj h
        simp only [List.flatMap_cons, hg]
        exact List.mem_append_left _ (treeFirst_mem g p (hq ▸ ht))

/-- C3: a FeatureCollection in which every coordinate pair of every
feature lies within [-180,180]×[-90,90] — including the empty collection
and collections without geometry, whose pair list is empty — is returned
unchanged by the Coordinate Normalizer. -/
theorem reproject_identity_when_in_bounds (fc : FeatureCollection)
    (h : ∀ p ∈ fcPairs fc, |p.1| ≤ 180 ∧ |p.2| ≤ 90) :
    reprojectFeatureCollectionIfNeeded fc = fc := by
  unfold reprojectFeatureCollectionIfNeeded
  split
  · rfl
  · cases hf : firstCoordOf fc with
    | none => rfl
    | some xy =>
      obtain ⟨x, y⟩ := xy
      have hb := h (x, y) (firstCoordOf_mem fc.features (x, y) hf)
      dsimp only
      rw [if_neg]
      push_neg
      exact ⟨hb.1, hb.2⟩

/-- C3 witness: a collection whose single pair (1, 2) is in bounds is
returned unchanged. -/
theorem reproject_identity_when_in_bounds_witness :
    (∀ p ∈ fcPairs fcInBounds, |p.1| ≤ 180 ∧ |p.2| ≤ 90) ∧
    reprojectFeatureCollectionIfNeeded fcInBounds = fcInBounds := by
  have hb : ∀ p ∈ fcPairs fcInBounds, |p.1| ≤ 180 ∧ |p.2| ≤ 90 := by
    intro p hp
    simp only [fcPairs, fcInBounds, List.flatMap_cons, List.flatMap_nil,
      treePairs, List.append_nil, List.mem_singleton] at hp
    rw [hp]
    constructor <;> · rw [abs_le]; norm_num
  exact ⟨hb, reproject_identity_when_in_bounds fcInBounds hb⟩

/-- C2 counterexample: the invariant "after normalization every pair is
within |x| ≤ 180 and |y| ≤ 90" fails, because the Normalizer inspects only
the first pair: in fcFastPath the first pair (0, 0) is in bounds, the
collection is returned unchanged, and its second pair (1000000, 0) stays
far outside the bounds. -/
theorem reproject_not_always_in_bounds :
    ¬ (∀ p ∈ fcPairs (reprojectFeatureCollectionIfNeeded fcFastPath),
        |p.1| ≤ 180 ∧ |p.2| ≤ 90) := by
  have h1 : reprojectFeatureCollectionIfNeeded fcFastPath = fcFastPath := by
    unfold reprojectFeatureCollectionIfNeeded
    rw [show fcFastPath.features.isEmpty = false from rfl]
    rw [if_neg Bool.false_ne_true]
    rw [show firstCoordOf fcFastPath = some (0, 0) from rfl]
    dsimp only
    rw [if_neg (show ¬(|(0 : ℝ)| > 180 ∨ |(0 : ℝ)| > 90) by
      simp only [abs_zero]
      push_neg
      norm_num)]
  intro h
  have h2 := h (1000000, 0) (by
    rw [h1]
    simp [fcPairs, fcFastPath, treePairs, listPairs])
  have h3 : |(1000000 : ℝ)| ≤ 180 := h2.1
  rw [abs_le] at h3
  norm_num at h3

/-- The latitude produced by the Web-Mercator inverse always lies within
(-90, 90): arctan of a positive number lies in (0, π/2). -/
theorem toWgs84_lat_bound (x y : ℝ) : |(toWgs84Coordinate x y).2| ≤ 90 := by
  unfold toWgs84Coordinate
  dsimp only
  have hπ := Real.pi_pos
  have h1 : 0 < Real.arctan (Real.exp (y / 20037508.34 * 180 * Real.pi / 180)) := by
    rw [← Real.arctan_zero]
    exact Real.arctan_strictMono (Real.exp_pos _)
  have h2 : Real.arctan (Real.exp (y / 20037508.34 * 180 * Real.pi / 180)) <
      Real.pi / 2 := Real.arctan_lt_pi_div_two _
  have hpos : (0 : ℝ) < 180 / Real.pi := by positivity
  have habs : |2 * Real.arctan (Real.exp (y / 20037508.34 * 180 * Real.pi / 180)) -
      Real.pi / 2| ≤ Real.pi / 2 := abs_le.mpr ⟨by linarith, by linarith⟩
  rw [abs_mul, abs_of_pos hpos]
  calc 180 / Real.pi *
        |2 * Real.arctan (Real.exp (y / 20037508.34 * 180 * Real.pi / 180)) -
          Real.pi / 2|
      ≤ 180 / Real.pi * (Real.pi / 2) :=
        mul_le_mul_of_nonneg_left habs (le_of_lt hpos)
    _ = 90 := by field_simp; norm_num

/-- The longitude produced by the Web-Mercator inverse is within
[-180, 180] exactly when the projected x-magnitude is at most the origin
shift R = 20037508.34. -/
theorem toWgs84_lon_bound (x y : ℝ) (h : |x| ≤ 20037508.34) :
    |(toWgs84Coordinate x y).1| ≤ 180 := by
  unfold toWgs84Coordinate
  dsimp only
  rw [abs_mul, abs_div]
  have h1 : |x| / |(20037508.34 : ℝ)| ≤ 1 := by
    rw [abs_of_pos (by norm_num : (0 : ℝ) < 20037508.34)]
    rw [div_le_one (by norm_num : (0 : ℝ) < 20037508.34)]
    exact h
  have h2 : |(180 : ℝ)| = 180 := abs_of_pos (by norm_num)
  rw [h2]
  nlinarith [h1]

mutual
/-- The pairs of a transformed tree are the transformed pairs of the
tree. -/
theorem treePairs_transform : ∀ t : CoordTree,
    treePairs (transformTree t) =
      (treePairs t).map (fun p => toWgs84Coordinate p.1 p.2)
  | .pair x y => by
    rw [transformTree, treePairs, treePairs, List.map_singleton]
  | .node cs => by
    rw [transformTree, treePairs, treePairs, listPairs_transform cs]
theorem listPairs_transform : ∀ l : CoordList,
    listPairs (transformList l) =
      (listPairs l).map (fun p => toWgs84Coordinate p.1 p.2)
  | .nil => rfl
  | .cons c cs => by
    rw [transformList, listPairs, listPairs, treePairs_transform c,
      listPairs_transform cs, List.map_append]
end

/-- The pairs of a feature list whose geometries have all been transformed
are the transformed pairs of the original list. -/
theorem flatMap_pairs_transform (fs : List Feature) :
    ((fs.map fun f =>
        match f.geometry with
        | none => f
        | some g => { f with geometry := some (transformTree g) }).flatMap
      fun f =>
        match f.geometry with
        | some g => treePairs g
        | none => []) =
    (fs.flatMap fun f =>
        match f.geometry with
        | some g => treePairs g
        | none => []).map (fun p => toWgs84Coordinate p.1 p.2) := by
  induction fs with
  | nil => rfl
  | cons f fs ih =>
    rw [List.map_cons, List.flatMap_cons, List.flatMap_cons, List.map_append, ih]
    congr 1
    cases hg : f.geometry with
    | none =>
      dsimp only
      rw [hg]
      rfl
    | some g =>
      dsimp only
      exact treePairs_transform g

/-- When the first-pair heuristic triggers reprojection, the output pairs
are exactly the transformed input pairs. -/
theorem fcPairs_reproject_triggered (fc : FeatureCollection) (x y : ℝ)
    (hfirst : firstCoordOf fc = some (x, y))
    (hout : |x| > 180 ∨ |y| > 90) :
    fcPairs (reprojectFeatureCollectionIfNeeded fc) =
      (fcPairs fc).map (fun p => toWgs84Coordinate p.1 p.2) := by
  have hne : fc.features.isEmpty = false := by
    cases hfs : fc.features with
    | nil =>
      unfold firstCoordOf at hfirst
      rw [hfs] at hfirst
      simp [List.findSome?] at hfirst
    | cons a l => rfl
  unfold reprojectFeatureCollectionIfNeeded
  rw [hne]
  rw [if_neg Bool.false_ne_true]
  rw [hfirst]
  dsimp only
  rw [if_pos hout]
  unfold fcPairs
  exact flatMap_pairs_transform fc.features

/-- C2 amended: when the Normalizer actually reprojects — the first
coordinate pair found is outside [-180,180]×[-90,90] — and every input
x-magnitude is at most the Web-Mercator origin shift R = 20037508.34
(true of genuine EPSG:3857 data), every output pair satisfies |x| ≤ 180
and |y| ≤ 90.  Without the trigger the collection passes through
unchanged (see the counterexample), and an |x| beyond R would map outside
[-180,180]. -/
theorem reproject_bounds_when_triggered (fc : FeatureCollection) (x y : ℝ)
    (hfirst : firstCoordOf fc = some (x, y))
    (hout : |x| > 180 ∨ |y| > 90)
    (hx : ∀ p ∈ fcPairs fc, |p.1| ≤ 20037508.34) :
    ∀ p ∈ fcPairs (reprojectFeatureCollectionIfNeeded fc),
      |p.1| ≤ 180 ∧ |p.2| ≤ 90 := by
  intro p hp
  rw [fcPairs_reproject_triggered fc x y hfirst hout] at hp
  obtain ⟨q, hq, rfl⟩ := List.mem_map.mp hp
  exact ⟨toWgs84_lon_bound q.1 q.2 (hx q hq), toWgs84_lat_bound q.1 q.2⟩

/-- C2 witness: a collection whose only pair is the projected coordinate
(300, 0) triggers reprojection, respects the x-magnitude premise, and
lands within geographic bounds. -/
theorem reproject_bounds_when_triggered_witness :
    firstCoordOf fcProjected = some (300, 0) ∧
    (|(300 : ℝ)| > 180 ∨ |(0 : ℝ)| > 90) ∧
    (∀ p ∈ fcPairs fcProjected, |p.1| ≤ 20037508.34) ∧
    (∀ p ∈ fcPairs (reprojectFeatureCollectionIfNeeded fcProjected),
      |p.1| ≤ 180 ∧ |p.2| ≤ 90) := by
  have h1 : firstCoordOf fcProjected = some (300, 0) := rfl
  have h2 : |(300 : ℝ)| > 180 ∨ |(0 : ℝ)| > 90 := by
    left
    rw [abs_of_pos (by norm_num : (0 : ℝ) < 300)]
    norm_num
  have h3 : ∀ p ∈ fcPairs fcProjected, |p.1| ≤ 20037508.34 := by
    intro p hp
    simp only [fcPairs, fcProjected, List.flatMap_cons, List.flatMap_nil,
      treePairs, List.append_nil, List.mem_singleton] at hp
    rw [hp]
    rw [show ((300 : ℝ), (0 : ℝ)).1 = (300 : ℝ) from rfl]
    rw [abs_of_pos (by norm_num : (0 : ℝ) < 300)]
    norm_num
  exact ⟨h1, h2, h3, reproject_bounds_when_triggered fcProjected 300 0 h1 h2 h3⟩

end Climate
